import Mathlib

/-!
Shallow embedding of the Factor Evaluation & Selection Engine
(operators library, expression sandbox, backtest scorer, penalty
optimizer and final ranking) for verification of the specification
claims.  Numeric values are modelled as rationals; the missing-value
marker (NaN) of the source is modelled as `Option.none`.
-/

namespace VibeQuant

/-- A per-entity (per-ticker) time series: one slot per row, `none`
standing for a missing value (NaN). -/
abbrev TSeries := List (Option ℚ)

/- ---------------------------------------------------------------
   Penalty helpers.

   `re.findall(r'\d+', formula)` returns the maximal runs of digits
   in the formula text; its length is the number of such runs.
   `countDigitRunsAux prev cs` counts the maximal digit runs of `cs`
   given that the previous character was a digit iff `prev`.
--------------------------------------------------------------- -/

def countDigitRunsAux : Bool → List Char → Nat
  | _, [] => 0
  | prev, c :: cs =>
      (if c.isDigit && !prev then 1 else 0) + countDigitRunsAux c.isDigit cs

/-- Number of maximal digit runs in a string, i.e.
`len(re.findall(r'\d+', formula))`. -/
def countDigitRuns (s : String) : Nat := countDigitRunsAux false s.data

/-- `calculate_penalty` from `app.py`:
`alpha1 * len(formula) + alpha2 * len(re.findall(r'\d+', formula))`. -/
def calculate_penalty (formula : String) (alpha1 alpha2 : ℚ) : ℚ :=
  let complexity_penalty : ℚ := formula.length
  let param_count_penalty : ℚ := countDigitRuns formula
  alpha1 * complexity_penalty + alpha2 * param_count_penalty

namespace HyperparameterOptimizer

/-- `HyperparameterOptimizer._calculate_penalty` from `core/optimizer.py`:
`alpha1 * len(formula) + alpha2 * len(re.findall(r'\d+', formula))`. -/
def _calculate_penalty (formula : String) (alpha1 alpha2 : ℚ) : ℚ :=
  let complexity_penalty : ℚ := formula.length
  let param_count_penalty : ℚ := countDigitRuns formula
  alpha1 * complexity_penalty + alpha2 * param_count_penalty

end HyperparameterOptimizer

/- ---------------------------------------------------------------
   Rolling-window machinery (`_get_rolling_obj` and the time-series
   operators of `core/operators.py`).

   `_get_rolling_obj(series, window)` builds a per-ticker rolling
   window of size `window` with
   `min_periods = max(1, int(window * 0.8))`.
   Python `int()` truncates toward zero, and for every window size
   that arises here `int(d * 0.8) = ⌊4*d/5⌋` (the float product
   `d * 0.8` never rounds across an integer), so `min_periods` is
   `max 1 (4 * d / 5)` in natural-number division.
--------------------------------------------------------------- -/

def minPeriods (d : Nat) : Nat := max 1 (4 * d / 5)

/-- The trailing window of (at most) `d` rows ending at row `i`,
exactly the data pandas hands to a rolling aggregation at position
`i`: rows `i+1-d .. i` (fewer at the start of the series). -/
def windowAt (s : TSeries) (d i : Nat) : TSeries :=
  (s.take (i + 1)).drop (i + 1 - d)

/-- The valid (non-missing) observations of a window. -/
def validObs (w : TSeries) : List ℚ := w.filterMap id

/-- A NaN-skipping native rolling aggregation (pandas `rolling.sum`,
`rolling.min`, `rolling.max`): at each row, if the window holds at
least `min_periods` valid observations, apply `f` to the valid
observations, otherwise emit a missing value. -/
def rollingNative (f : List ℚ → ℚ) (s : TSeries) (d : Nat) : TSeries :=
  (List.range s.length).map fun i =>
    let v := validObs (windowAt s d i)
    if minPeriods d ≤ v.length then some (f v) else none

/-- An `apply`-based rolling aggregation with `raw=True` (pandas
`rolling.apply`): the user function receives the raw window, missing
values included; pandas only invokes it when the window holds at
least `min_periods` valid observations, and the function itself may
still return a missing value. -/
def rollingApplyRaw (f : TSeries → Option ℚ) (s : TSeries) (d : Nat) : TSeries :=
  (List.range s.length).map fun i =>
    let w := windowAt s d i
    if minPeriods d ≤ (validObs w).length then f w else none

def listSum (l : List ℚ) : ℚ := l.foldl (· + ·) 0

def listMinQ : List ℚ → ℚ
  | [] => 0
  | x :: xs => xs.foldl min x

def listMaxQ : List ℚ → ℚ
  | [] => 0
  | x :: xs => xs.foldl max x

/-- `ts_sum(series, d)`: rolling sum over the trailing `d` rows. -/
def ts_sum (s : TSeries) (d : Nat) : TSeries := rollingNative listSum s d

/-- `ts_min(series, d)`: rolling minimum over the trailing `d` rows. -/
def ts_min (s : TSeries) (d : Nat) : TSeries := rollingNative listMinQ s d

/-- `ts_max(series, d)`: rolling maximum over the trailing `d` rows. -/
def ts_max (s : TSeries) (d : Nat) : TSeries := rollingNative listMaxQ s d

/-- Sample variance with `ddof = 1` of a list of observations
(undefined — `none` — on fewer than two observations, matching the
0/0 NaN of the float computation). -/
def sampleVar (l : List ℚ) : Option ℚ :=
  if l.length < 2 then none
  else
    let n : ℚ := l.length
    let m : ℚ := listSum l / n
    some (listSum (l.map fun x => (x - m) ^ 2) / (n - 1))

/-- `stddev(series, d)`: pandas `rolling.std` (ddof = 1).  The payload
recorded here is the sample *variance*; the source takes its square
root, which is irrational in general but defined exactly when the
variance is (a single observation gives the 0/0 NaN), so definedness
— the subject of the claims — is modelled exactly. -/
def stddev (s : TSeries) (d : Nat) : TSeries :=
  (List.range s.length).map fun i =>
    let v := validObs (windowAt s d i)
    if minPeriods d ≤ v.length then sampleVar v else none

def listProd (l : List ℚ) : ℚ := l.foldl (· * ·) 1

/-- `ts_product(series, d)`: `rolling.apply(np.prod, raw=True)`.
`np.prod` over the raw window propagates NaN: any missing value in
the window makes the product missing. -/
def ts_product (s : TSeries) (d : Nat) : TSeries :=
  rollingApplyRaw
    (fun w => if w.all Option.isSome then some (listProd (validObs w)) else none)
    s d

/- ---------------------------------------------------------------
   `decay_linear` — the rolling apply whose user function can raise.

   weights = np.arange(1, d+1)                (length exactly d)
   .apply(lambda s: np.dot(s, weights) / weights.sum(), raw=True)

   `np.dot` on two one-dimensional arrays of different lengths raises
   `ValueError`; pandas hands partial leading windows (length < d) to
   the lambda whenever they meet `min_periods`, so the possibility of
   raising is modelled with `Except`.
--------------------------------------------------------------- -/

/-- `np.dot(w, weights) / weights.sum()` for `weights = [1..d]`,
on a raw window `w`: a length mismatch raises; a missing value in the
window propagates to NaN. -/
def decayDot (d : Nat) (w : TSeries) : Except String (Option ℚ) :=
  if w.length = d then
    if w.all Option.isSome then
      Except.ok (some (listSum ((validObs w).zipWith (fun x k => x * k)
        ((List.range d).map fun k => ((k + 1 : Nat) : ℚ))) / ((d * (d + 1) : Nat) / 2 : Nat)))
    else Except.ok none
  else Except.error "ValueError: shapes not aligned"

/-- One rolling-apply step of `decay_linear` at row `i`. -/
def decayStep (s : TSeries) (d i : Nat) : Except String (Option ℚ) :=
  let w := windowAt s d i
  if minPeriods d ≤ (validObs w).length then decayDot d w else Except.ok none

/-- `decay_linear(series, d)`: the rolling weighted moving average,
propagating the `ValueError` that `np.dot` raises on a window shorter
than the weight vector. -/
def decay_linear (s : TSeries) (d : Nat) : Except String TSeries :=
  (List.range s.length).mapM (decayStep s d)

/- ---------------------------------------------------------------
   `delay` and `delta`.
--------------------------------------------------------------- -/

/-- `series.groupby(level='ticker').shift(d)` restricted to one
entity: `d` leading missing values, the series truncated at the end. -/
def shiftSeries (s : TSeries) (d : Nat) : TSeries :=
  List.replicate (min d s.length) none ++ s.take (s.length - d)

/-- `delay(series, d) = series.groupby(level='ticker').shift(d)`. -/
def delay (s : TSeries) (d : Nat) : TSeries := shiftSeries s d

/-- Elementwise subtraction of two aligned series; defined exactly
where both operands are. -/
def subSeries (a b : TSeries) : TSeries :=
  List.zipWith
    (fun x y => match x, y with
      | some u, some v => some (u - v)
      | _, _ => none) a b

/-- `delta(series, d) = series - series.groupby(level='ticker').shift(d)`. -/
def delta (s : TSeries) (d : Nat) : TSeries := subSeries s (shiftSeries s d)

/- ---------------------------------------------------------------
   Expression sandbox (`BacktesterClient.run_backtest`, steps 1-4).

   The scope handed to `pd.eval` is
   `{**operator_funcs, **data_vars}` with `global_dict={}`:
   `operator_funcs` are the non-underscore functions of
   `core/operators.py` gathered by `inspect.getmembers`, and
   `data_vars` the panel columns keyed by column name.

   Modelled from the spec: the name-resolution behaviour of
   `pd.eval(engine='python', local_dict=scope, global_dict={})`
   itself lives in pandas, outside this repository's sources; per
   §4.2 it parses the formula and binds every identifier against the
   supplied scope before any evaluation, rejecting an unknown
   identifier with a typed error.
--------------------------------------------------------------- -/

/-- A panel-level series: one `TSeries` per ticker, tickers aligned
by position across columns. -/
abbrev PSeries := List TSeries

/-- The panel columns, as `data_vars` builds them: an association
list column-name to panel series. -/
abbrev Panel := List (String × PSeries)

/-- The names of the non-underscore functions of `core/operators.py`,
exactly what `inspect.getmembers(operators, inspect.isfunction)`
collects (alphabetical). -/
def operatorNames : List String :=
  ["correlation", "covariance", "decay_linear", "delay", "delta",
   "indneutralize", "rank", "scale", "sign", "stddev",
   "ts_argmax", "ts_argmin", "ts_max", "ts_min", "ts_product",
   "ts_rank", "ts_sum"]

/-- The binary operators of the expression grammar. -/
inductive BinOp where
  | add | sub | mul | div
deriving DecidableEq, Repr

mutual
/-- The abstract syntax of a formula: numeric literals, identifier
references, operator calls and binary arithmetic. -/
inductive Expr where
  | lit : ℚ → Expr
  | ident : String → Expr
  | call : String → ExprList → Expr
  | binop : BinOp → Expr → Expr → Expr

/-- An argument list of a call. -/
inductive ExprList where
  | nil : ExprList
  | cons : Expr → ExprList → ExprList
end

mutual
/-- Every identifier a formula references: the names of its `ident`
nodes and of its `call` heads. -/
def identsOf : Expr → List String
  | .lit _ => []
  | .ident n => [n]
  | .call n args => n :: identsOfList args
  | .binop _ a b => identsOf a ++ identsOf b

def identsOfList : ExprList → List String
  | .nil => []
  | .cons e es => identsOf e ++ identsOfList es
end

/-- A run-time value of the sandbox: a scalar or a panel series. -/
inductive Value where
  | num : ℚ → Value
  | ser : PSeries → Value
deriving Repr

/-- The typed failures of the evaluation layer (§7 taxonomy). -/
inductive EvaluationError where
  | expressionRejected
  | evaluationFailure
deriving DecidableEq, Repr

/-- Semantics of a registered operator: the implementations live in
the operator library; the sandbox only dispatches to them by name, so
they are a parameter of the model. -/
abbrev OpSem := String → List Value → Option Value

/-- Elementwise application of a scalar function over a panel series. -/
def mapPSeries (f : ℚ → Option ℚ) (p : PSeries) : PSeries :=
  p.map fun t => t.map fun o => o.bind f

/-- Elementwise combination of two aligned panel series; missing
values propagate. -/
def zipPSeries (f : ℚ → ℚ → Option ℚ) (p q : PSeries) : PSeries :=
  List.zipWith
    (fun a b => List.zipWith
      (fun x y => match x, y with
        | some u, some v => f u v
        | _, _ => none) a b) p q

/-- Apply a binary arithmetic operator to scalars.  Division by zero
is the one float case with no rational counterpart (IEEE ±inf / NaN);
it is modelled as a missing value. -/
def applyBinQ : BinOp → ℚ → ℚ → Option ℚ
  | .add, x, y => some (x + y)
  | .sub, x, y => some (x - y)
  | .mul, x, y => some (x * y)
  | .div, x, y => if y = 0 then none else some (x / y)

/-- Apply a binary operator to two sandbox values, broadcasting a
scalar over a series as pandas does. -/
def applyBin (op : BinOp) : Value → Value → Option Value
  | .num x, .num y => (applyBinQ op x y).map .num
  | .ser p, .num y => some (.ser (mapPSeries (fun x => applyBinQ op x y) p))
  | .num x, .ser q => some (.ser (mapPSeries (fun y => applyBinQ op x y) q))
  | .ser p, .ser q => some (.ser (zipPSeries (applyBinQ op) p q))

mutual
/-- The evaluation phase, run only on formulas every one of whose
identifiers is already bound: column references read the panel,
calls dispatch into the operator registry. -/
def evalPhase (ops : OpSem) (panel : Panel) : Expr → Except EvaluationError Value
  | .lit q => .ok (.num q)
  | .ident n =>
      match panel.lookup n with
      | some s => .ok (.ser s)
      | none => .error .evaluationFailure
  | .call n args => do
      let vs ← evalArgs ops panel args
      match ops n vs with
      | some v => .ok v
      | none => .error .evaluationFailure
  | .binop op a b => do
      let x ← evalPhase ops panel a
      let y ← evalPhase ops panel b
      match applyBin op x y with
      | some v => .ok v
      | none => .error .evaluationFailure

/-- Evaluate an argument list left to right. -/
def evalArgs (ops : OpSem) (panel : Panel) :
    ExprList → Except EvaluationError (List Value)
  | .nil => .ok []
  | .cons e es => do
      let v ← evalPhase ops panel e
      let vs ← evalArgs ops panel es
      .ok (v :: vs)
end

/-- Modelled from the spec: the name binding performed by
`pd.eval(engine='python', local_dict=scope, global_dict={})` lives in
pandas, outside these sources; per §4.2 every identifier of the
formula is bound against the declared scope (panel column names and
operator registry names) when the expression is parsed, and an
identifier outside the scope is rejected before the evaluation phase
runs, so no operator implementation is ever invoked for it. -/
def sandboxEval (ops : OpSem) (panel : Panel) (e : Expr) :
    Except EvaluationError Value :=
  if (identsOf e).all
      (fun n => n ∈ panel.map Prod.fst ∨ n ∈ operatorNames) then
    evalPhase ops panel e
  else .error .expressionRejected

/- ---------------------------------------------------------------
   Backtest scorer (`BacktesterClient.run_backtest`, steps 5-9).
--------------------------------------------------------------- -/

/-- The prediction target for one ticker:
`close.pct_change(1).shift(-1)`, i.e. the next-day return
`close[t+1]/close[t] - 1` at row `t` (missing at the last row, and
where a close is missing or the denominator is zero — the float
division by zero yields inf/NaN, modelled as missing). -/
def targetSeries (close : TSeries) : TSeries :=
  (List.range close.length).map fun i =>
    match close.get? i, close.get? (i + 1) with
    | some (some c0), some (some c1) =>
        if c0 = 0 then none else some (c1 / c0 - 1)
    | _, _ => none

/-- The prediction target over the whole panel, per ticker
(`groupby(level='ticker')['close'].pct_change(1).shift(-1)`). -/
def targetOf (close : PSeries) : PSeries := close.map targetSeries

/-- Coerce the result of `pd.eval` to a panel series: a scalar result
is broadcast over the panel's shape by the DataFrame constructor. -/
def toFactorSeries (shape : PSeries) : Value → PSeries
  | .ser p => p
  | .num q => shape.map fun t => t.map fun _ => some q

/-- Join the factor and target series row by row and drop every row
where either is missing (`pd.DataFrame({...}).dropna()`). -/
def joinedRows (factor target : PSeries) : List (ℚ × ℚ) :=
  (List.zipWith
    (fun f t => (List.zipWith
      (fun x y => match x, y with
        | some u, some v => some (u, v)
        | _, _ => none) f t).filterMap id)
    factor target).flatten

/-- The aligned complete sample of a formula over a panel: `none`
when the sandbox rejects the formula or the panel has no `close`
column (the exception path of the source). -/
def backtestSample (ops : OpSem) (panel : Panel) (e : Expr) :
    Option (List (ℚ × ℚ)) :=
  match sandboxEval ops panel e with
  | .error _ => none
  | .ok v =>
      match panel.lookup "close" with
      | none => none
      | some close =>
          some (joinedRows (toFactorSeries close v) (targetOf close))

/-- `BacktesterClient.run_backtest`: evaluate the formula in the
sandbox, build the next-day-return target, join and drop incomplete
rows; fewer than 100 complete rows — or any failure, which the
enclosing `try/except` swallows — scores 0.0.  The model fit and the
Pearson IC of steps 8-9 (LightGBM, an external library) enter as the
function parameter `fitIC`, invoked only on a sufficient sample. -/
def run_backtest (fitIC : List (ℚ × ℚ) → ℚ) (ops : OpSem) (panel : Panel)
    (e : Expr) : ℚ :=
  match backtestSample ops panel e with
  | none => 0
  | some sample => if sample.length < 100 then 0 else fitIC sample

/- ---------------------------------------------------------------
   Stable descending sort.

   Both `EvalAgent.evaluate_factors` and the final ranking of
   `app.py` call Python's `list.sort(key=..., reverse=True)`, a
   stable sort: elements with equal keys keep their original relative
   order (`reverse=True` does not reverse ties).  Insertion sort
   where an element moves past another only on a strictly larger key
   has exactly that behaviour.
--------------------------------------------------------------- -/

def insertDescBy (key : α → ℚ) (a : α) : List α → List α
  | [] => [a]
  | b :: l => if key a < key b then b :: insertDescBy key a l else a :: b :: l

def sortDescBy (key : α → ℚ) : List α → List α
  | [] => []
  | a :: l => insertDescBy key a (sortDescBy key l)

/- ---------------------------------------------------------------
   `EvalAgent.evaluate_factors` (`agents/eval_agent.py`).
--------------------------------------------------------------- -/

/-- A factor candidate as the evaluation agent receives it:
`{description, formula}`.  `formula = none` models both a missing
`'formula'` key and the empty formula string (both are falsy, so
`evaluate_factors` skips either).  The formula is carried as the
parsed expression together with its source text. -/
structure Candidate where
  description : String
  formula : Option (String × Expr)

/-- An evaluated factor: the candidate with its `'ic'` score. -/
structure EvalResult where
  description : String
  formula : Option (String × Expr)
  ic : ℚ

/-- `EvalAgent.evaluate_factors`: score every candidate that has a
formula through the backtester (whose `try/except` already turned
every failure into 0.0), skip the rest, and sort the results by IC
descending. -/
def evaluate_factors (score : Expr → ℚ) (factors : List Candidate) :
    List EvalResult :=
  sortDescBy (fun r => r.ic)
    (factors.filterMap fun c =>
      c.formula.map fun f =>
        { description := c.description, formula := c.formula, ic := score f.2 })

/- ---------------------------------------------------------------
   `HyperparameterOptimizer` (`core/optimizer.py`).
--------------------------------------------------------------- -/

/-- A scoring-parameter tuple `(lambda_val, alpha1, alpha2)`. -/
structure Params where
  lambda_val : ℚ
  alpha1 : ℚ
  alpha2 : ℚ
deriving DecidableEq, Repr

/-- The search bounds `pbounds` of `optimize`:
`lambda_val ∈ [0, 0.01]`, `alpha1, alpha2 ∈ [0, 1]`. -/
def inBounds (p : Params) : Prop :=
  0 ≤ p.lambda_val ∧ p.lambda_val ≤ 1 / 100 ∧
  0 ≤ p.alpha1 ∧ p.alpha1 ≤ 1 ∧
  0 ≤ p.alpha2 ∧ p.alpha2 ≤ 1

instance : DecidablePred inBounds := fun _ => by
  unfold inBounds; infer_instance

/-- A factor as the optimizer's objective reads it: `.get('ic', 0.0)`
and `.get('formula', '')`, so both fields may be absent. -/
structure OptFactor where
  formula : Option String
  ic : Option ℚ

/-- `HyperparameterOptimizer._objective_function`: the best
penalty-adjusted score `ic - lambda * penalty` over the factor set
(0.0 on an empty set). -/
def _objective_function (factors : List OptFactor) (p : Params) : ℚ :=
  if factors.isEmpty then 0
  else
    let scores := factors.map fun f =>
      f.ic.getD 0 -
        p.lambda_val *
          HyperparameterOptimizer._calculate_penalty (f.formula.getD "")
            p.alpha1 p.alpha2
    listMaxQ scores

/-- Modelled from the spec: `optimize` delegates the search to
`bayes_opt.BayesianOptimization` (an external library, outside these
sources).  Per §4.4 the search probes a fixed, seed-deterministic
sequence of parameter tuples drawn inside `pbounds` (5 random then 10
guided probes) and returns the probed tuple with the largest
objective value.  The probe sequence (first probe `p0`, rest `ps`)
is a parameter of the model; the library guarantees every probe lies
within `pbounds`. -/
def optimize (factors : List OptFactor) (p0 : Params) (ps : List Params) :
    Params :=
  ps.foldl
    (fun best p =>
      if _objective_function factors best < _objective_function factors p
      then p else best)
    p0

/- ---------------------------------------------------------------
   Final ranking stage of `app.py` (`main`, stages 2-3).
--------------------------------------------------------------- -/

/-- An evaluated factor as `main` handles it: formula text with its
parsed expression, and the IC — `none` modelling both a missing
`'ic'` and a NaN IC (the `pd.notna` filter). -/
structure AppFactor where
  formula : String
  ic : Option ℚ

/-- A ranked factor: `factor_with_score` with `penalty` and
`optimized_score`. -/
structure RankedFactor where
  formula : String
  ic : ℚ
  penalty : ℚ
  optimized_score : ℚ
deriving DecidableEq, Repr

/-- The documented default parameters used when optimization is
skipped: `{'lambda_val': 0.001, 'alpha1': 0.5, 'alpha2': 0.5}`. -/
def defaultParams : Params := ⟨1 / 1000, 1 / 2, 1 / 2⟩

/-- The parameter-selection step of `main`: keep only factors with a
defined (non-null, non-NaN) IC; if none remain, fall back to the
default parameters, otherwise run the optimizer (abstracted as
`opt`) on the valid factors. -/
def chooseParams (opt : List AppFactor → Params) (evaluated : List AppFactor) :
    Params :=
  let valid := evaluated.filter fun f => f.ic.isSome
  if valid.isEmpty then defaultParams else opt valid

/-- The recomputation of penalty and net score for one factor with a
defined IC (`calculate_penalty` and
`final_score = ic - lambda_val * penalty` in `main`). -/
def rescoreFactor (p : Params) (f : AppFactor) : Option RankedFactor :=
  f.ic.map fun ic =>
    let pen := calculate_penalty f.formula p.alpha1 p.alpha2
    { formula := f.formula, ic := ic, penalty := pen,
      optimized_score := ic - p.lambda_val * pen }

/-- The final ranking of `main`: recompute penalty and net score for
every factor with a defined IC, then
`sort(key=lambda x: x['optimized_score'], reverse=True)`. -/
def rankFactors (p : Params) (evaluated : List AppFactor) : List RankedFactor :=
  sortDescBy (fun r => r.optimized_score) (evaluated.filterMap (rescoreFactor p))

/-- Stages 2-3 of `main` after factor evaluation: an empty evaluated
list aborts before optimization; otherwise parameters are chosen
(defaults when no factor has a defined IC), the ranking is built, an
empty ranking aborts, and the first ranked factor is the selection. -/
def appRankingStage (opt : List AppFactor → Params) (evaluated : List AppFactor) :
    Option (Params × List RankedFactor × RankedFactor) :=
  if evaluated.isEmpty then none
  else
    match rankFactors (chooseParams opt evaluated) evaluated with
    | [] => none
    | best :: rest => some (chooseParams opt evaluated, best :: rest, best)

/-- The per-window minimum-observations threshold asserted by the
specification: `max(1, ceil(0.8 * d))`, written with natural-number
arithmetic (`⌈4d/5⌉ = (4d+4)/5`). -/
def specCeilThreshold (d : Nat) : Nat := max 1 ((4 * d + 4) / 5)

/-- A row of a series holds a defined (non-missing) value. -/
def definedAt (s : TSeries) (i : Nat) : Prop := ∃ q, s[i]? = some (some q)

/-- The (amended) per-row definedness discipline of the rolling
operators at row `i` of series `s` with window `d`: the threshold is
`minPeriods d = max(1, ⌊0.8·d⌋)`; the NaN-skipping natives (and any
aggregation through the rolling helper) are defined exactly when the
window meets it, `stddev` additionally needs two valid observations
(ddof = 1), and `ts_product` — an `apply` on the raw window —
additionally needs a window free of missing values. -/
def rollingThresholdSpec (s : TSeries) (d i : Nat) : Prop :=
  (∀ f : List ℚ → ℚ,
    definedAt (rollingNative f s d) i ↔
      minPeriods d ≤ (validObs (windowAt s d i)).length) ∧
  (definedAt (ts_sum s d) i ↔
      minPeriods d ≤ (validObs (windowAt s d i)).length) ∧
  (definedAt (ts_min s d) i ↔
      minPeriods d ≤ (validObs (windowAt s d i)).length) ∧
  (definedAt (ts_max s d) i ↔
      minPeriods d ≤ (validObs (windowAt s d i)).length) ∧
  (definedAt (stddev s d) i ↔
      (minPeriods d ≤ (validObs (windowAt s d i)).length ∧
       2 ≤ (validObs (windowAt s d i)).length)) ∧
  (definedAt (ts_product s d) i ↔
      (minPeriods d ≤ (validObs (windowAt s d i)).length ∧
       (windowAt s d i).all Option.isSome = true))

/-- A single-ticker panel of 100 rows with closes `1, 2, ..., 100`
(all five columns share the series): the next-day-return target is
defined on the first 99 rows only, so the aligned sample of the
formula `close` has exactly 99 complete rows. -/
def witnessCloses : TSeries :=
  (List.range 100).map fun i => some ((i + 1 : Nat) : ℚ)

def witnessPanel : Panel :=
  [("open", [witnessCloses]), ("high", [witnessCloses]),
   ("low", [witnessCloses]), ("close", [witnessCloses]),
   ("volume", [witnessCloses])]

/-- A minimal one-row panel with the five OHLCV columns. -/
def tinyPanel : Panel :=
  [("open", [[some 1]]), ("high", [[some 1]]), ("low", [[some 1]]),
   ("close", [[some 1]]), ("volume", [[some 1]])]

/-- The property claimed of the evaluation loop over a candidate
list and a backtest environment: the loop yields one scored result
for every candidate carrying a formula (failures never abort it),
each such candidate's result carries the backtester's score for its
formula, and any formula the sandbox rejects — or whose evaluation
otherwise fails — is surfaced as an IC of exactly 0.0. -/
def evalLoopSpec (fit : List (ℚ × ℚ) → ℚ) (ops : OpSem) (panel : Panel)
    (factors : List Candidate) : Prop :=
  (evaluate_factors (run_backtest fit ops panel) factors).length =
    (factors.filter fun c => c.formula.isSome).length ∧
  (∀ c ∈ factors, ∀ f, c.formula = some f →
    ∃ r ∈ evaluate_factors (run_backtest fit ops panel) factors,
      r.formula = some f ∧ r.ic = run_backtest fit ops panel f.2) ∧
  (∀ (e : Expr) (err : EvaluationError),
    sandboxEval ops panel e = Except.error err →
    run_backtest fit ops panel e = 0)

/-- The property claimed of the optimizer for a factor set and a
probe sequence: at every parameter tuple the objective value is the
maximum over the factors of
`ic − lambda · (alpha1 · length(formula) + alpha2 · digit_runs(formula))`
(some factor attains it and none exceeds it), and the search result
lies within the declared bounds. -/
def objectiveSpec (factors : List OptFactor) (p0 : Params)
    (ps : List Params) : Prop :=
  (∀ p : Params, ∃ f ∈ factors,
      _objective_function factors p =
        f.ic.getD 0 - p.lambda_val *
          (p.alpha1 * ((f.formula.getD "").length : ℚ) +
           p.alpha2 * (countDigitRuns (f.formula.getD "") : ℚ)) ∧
      ∀ g ∈ factors,
        g.ic.getD 0 - p.lambda_val *
          (p.alpha1 * ((g.formula.getD "").length : ℚ) +
           p.alpha2 * (countDigitRuns (g.formula.getD "") : ℚ)) ≤
        _objective_function factors p) ∧
  inBounds (optimize factors p0 ps)

/-- The (amended) ranking property for parameters `p` and an
evaluated factor list: the ranking is a permutation of the rescored
defined-IC factors, it is sorted by net score descending, factors
with equal net score keep their original relative order (Python's
sort is stable — the tie-breaker is list position, not formula
text), and the selection is the head of the ranking. -/
def rankingSpec (p : Params) (evaluated : List AppFactor) : Prop :=
  List.Perm (rankFactors p evaluated) (evaluated.filterMap (rescoreFactor p)) ∧
  List.Pairwise (fun a b => b.optimized_score ≤ a.optimized_score)
    (rankFactors p evaluated) ∧
  (∀ c : ℚ,
    (rankFactors p evaluated).filter (fun r => r.optimized_score = c) =
      (evaluated.filterMap (rescoreFactor p)).filter
        (fun r => r.optimized_score = c)) ∧
  (∀ (opt : List AppFactor → Params) (ps : Params) (l : List RankedFactor)
      (sel : RankedFactor),
    appRankingStage opt evaluated = some (ps, l, sel) →
    l = rankFactors ps evaluated ∧ (rankFactors ps evaluated).head? = some sel)

/- ---------------------------------------------------------------
   Helper lemmas.
--------------------------------------------------------------- -/

lemma getElem?_rangeMap (f : Nat → α) {n i : Nat} (h : i < n) :
    ((List.range n).map f)[i]? = some (f i) := by
  simp [List.getElem?_map, List.getElem?_range, h]

lemma rollingNative_getElem (f : List ℚ → ℚ) (s : TSeries) (d i : Nat)
    (h : i < s.length) :
    (rollingNative f s d)[i]? =
      some (if minPeriods d ≤ (validObs (windowAt s d i)).length
            then some (f (validObs (windowAt s d i))) else none) := by
  unfold rollingNative
  exact getElem?_rangeMap _ h

lemma rollingApplyRaw_getElem (f : TSeries → Option ℚ) (s : TSeries) (d i : Nat)
    (h : i < s.length) :
    (rollingApplyRaw f s d)[i]? =
      some (if minPeriods d ≤ (validObs (windowAt s d i)).length
            then f (windowAt s d i) else none) := by
  unfold rollingApplyRaw
  exact getElem?_rangeMap _ h

lemma stddev_getElem (s : TSeries) (d i : Nat) (h : i < s.length) :
    (stddev s d)[i]? =
      some (if minPeriods d ≤ (validObs (windowAt s d i)).length
            then sampleVar (validObs (windowAt s d i)) else none) := by
  unfold stddev
  exact getElem?_rangeMap _ h

lemma definedAt_rollingNative (f : List ℚ → ℚ) (s : TSeries) (d i : Nat)
    (h : i < s.length) :
    definedAt (rollingNative f s d) i ↔
      minPeriods d ≤ (validObs (windowAt s d i)).length := by
  unfold definedAt
  rw [rollingNative_getElem f s d i h]
  by_cases hc : minPeriods d ≤ (validObs (windowAt s d i)).length
  · simp [hc]
  · simp [hc]

/- `run_backtest` never propagates a failure: both error branches of
the model (the `except` of the source) score 0.0. -/

lemma run_backtest_of_sample_none (fit : List (ℚ × ℚ) → ℚ) (ops : OpSem)
    (panel : Panel) (e : Expr) (h : backtestSample ops panel e = none) :
    run_backtest fit ops panel e = 0 := by
  unfold run_backtest
  rw [h]

lemma run_backtest_of_short_sample (fit : List (ℚ × ℚ) → ℚ) (ops : OpSem)
    (panel : Panel) (e : Expr) (sample : List (ℚ × ℚ))
    (hs : backtestSample ops panel e = some sample)
    (hlen : sample.length < 100) :
    run_backtest fit ops panel e = 0 := by
  unfold run_backtest
  rw [hs]
  simp [hlen]

section SortLemmas

variable {α : Type} (key : α → ℚ)

lemma insertDescBy_perm (a : α) (l : List α) :
    List.Perm (insertDescBy key a l) (a :: l) := by
  induction l with
  | nil => exact List.Perm.refl _
  | cons b t ih =>
    unfold insertDescBy
    by_cases h : key a < key b
    · rw [if_pos h]
      exact (ih.cons b).trans (List.Perm.swap a b t)
    · rw [if_neg h]

lemma sortDescBy_perm (l : List α) : List.Perm (sortDescBy key l) l := by
  induction l with
  | nil => exact List.Perm.refl _
  | cons a t ih =>
    exact (insertDescBy_perm key a (sortDescBy key t)).trans (ih.cons a)

lemma insertDescBy_pairwise (a : α) (l : List α)
    (h : List.Pairwise (fun x y => key y ≤ key x) l) :
    List.Pairwise (fun x y => key y ≤ key x) (insertDescBy key a l) := by
  induction l with
  | nil => simp [insertDescBy]
  | cons b t ih =>
    rcases List.pairwise_cons.mp h with ⟨hb, ht⟩
    unfold insertDescBy
    by_cases hab : key a < key b
    · rw [if_pos hab]
      refine List.pairwise_cons.mpr ⟨?_, ih ht⟩
      intro y hy
      rcases List.mem_cons.mp (((insertDescBy_perm key a t).mem_iff).mp hy)
        with hy | hy
      · exact hy ▸ hab.le
      · exact hb y hy
    · rw [if_neg hab]
      refine List.pairwise_cons.mpr ⟨?_, h⟩
      intro y hy
      rcases List.mem_cons.mp hy with hy | hy
      · exact hy ▸ le_of_not_lt hab
      · exact (hb y hy).trans (le_of_not_lt hab)

lemma sortDescBy_pairwise (l : List α) :
    List.Pairwise (fun x y => key y ≤ key x) (sortDescBy key l) := by
  induction l with
  | nil => simp [sortDescBy]
  | cons a t ih => exact insertDescBy_pairwise key a _ ih

lemma insertDescBy_filter (a : α) (l : List α) (c : ℚ) :
    (insertDescBy key a l).filter (fun x => key x = c) =
      if key a = c then a :: l.filter (fun x => key x = c)
      else l.filter (fun x => key x = c) := by
  induction l with
  | nil => by_cases hac : key a = c <;> simp [insertDescBy, hac]
  | cons b t ih =>
    unfold insertDescBy
    by_cases hab : key a < key b
    · rw [if_pos hab]
      by_cases hbc : key b = c
      · have hac : ¬ key a = c := by
          intro hh
          rw [hh] at hab
          rw [hbc] at hab
          exact lt_irrefl c hab
        simp [List.filter_cons, hbc, ih, hac]
      · by_cases hac : key a = c <;> simp [List.filter_cons, hbc, ih, hac]
    · rw [if_neg hab]
      by_cases hac : key a = c <;> simp [List.filter_cons, hac]

lemma sortDescBy_filter (l : List α) (c : ℚ) :
    (sortDescBy key l).filter (fun x => key x = c) =
      l.filter (fun x => key x = c) := by
  induction l with
  | nil => rfl
  | cons a t ih =>
    show ((insertDescBy key a (sortDescBy key t)).filter _) = _
    rw [insertDescBy_filter key a _ c, ih]
    by_cases hac : key a = c <;> simp [List.filter_cons, hac]

end SortLemmas

section MaxLemmas

lemma foldl_max_spec (x : ℚ) (xs : List ℚ) :
    (xs.foldl max x = x ∨ xs.foldl max x ∈ xs) ∧
    x ≤ xs.foldl max x ∧ ∀ y ∈ xs, y ≤ xs.foldl max x := by
  induction xs generalizing x with
  | nil => simp
  | cons a t ih =>
    obtain ⟨h1, h2, h3⟩ := ih (max x a)
    have hfold : (a :: t).foldl max x = t.foldl max (max x a) := rfl
    refine ⟨?_, ?_, ?_⟩
    · rw [hfold]
      rcases h1 with h | h
      · rcases max_choice x a with hm | hm
        · left
          rw [h, hm]
        · right
          rw [h, hm]
          exact List.mem_cons_self a t
      · right
        exact List.mem_cons_of_mem a h
    · rw [hfold]
      exact (le_max_left x a).trans h2
    · intro y hy
      rw [hfold]
      rcases List.mem_cons.mp hy with hy | hy
      · exact hy ▸ (le_max_right x a).trans h2
      · exact h3 y hy

lemma listMaxQ_spec (l : List ℚ) (h : l ≠ []) :
    listMaxQ l ∈ l ∧ ∀ y ∈ l, y ≤ listMaxQ l := by
  match l with
  | [] => exact absurd rfl h
  | x :: xs =>
    obtain ⟨h1, h2, h3⟩ := foldl_max_spec x xs
    have hval : listMaxQ (x :: xs) = xs.foldl max x := rfl
    refine ⟨?_, ?_⟩
    · rw [hval]
      rcases h1 with hh | hh
      · rw [hh]
        exact List.mem_cons_self x xs
      · exact List.mem_cons_of_mem x hh
    · intro y hy
      rw [hval]
      rcases List.mem_cons.mp hy with hy | hy
      · exact hy ▸ h2
      · exact h3 y hy

end MaxLemmas

lemma optimize_mem (factors : List OptFactor) (p0 : Params) (ps : List Params) :
    optimize factors p0 ps = p0 ∨ optimize factors p0 ps ∈ ps := by
  unfold optimize
  induction ps generalizing p0 with
  | nil => exact Or.inl rfl
  | cons q t ih =>
    simp only [List.foldl_cons]
    rcases ih (if _objective_function factors p0 < _objective_function factors q
        then q else p0) with h | h
    · rw [h]
      by_cases hc : _objective_function factors p0 < _objective_function factors q
      · rw [if_pos hc]
        exact Or.inr (List.mem_cons_self q t)
      · rw [if_neg hc]
        exact Or.inl rfl
    · exact Or.inr (List.mem_cons_of_mem q h)

lemma run_backtest_of_error (fit : List (ℚ × ℚ) → ℚ) (ops : OpSem)
    (panel : Panel) (e : Expr) (err : EvaluationError)
    (h : sandboxEval ops panel e = .error err) :
    run_backtest fit ops panel e = 0 := by
  apply run_backtest_of_sample_none
  unfold backtestSample
  rw [h]

lemma length_filterMap_formula (g : Candidate → (String × Expr) → EvalResult)
    (factors : List Candidate) :
    (factors.filterMap fun c => c.formula.map (g c)).length =
      (factors.filter fun c => c.formula.isSome).length := by
  induction factors with
  | nil => rfl
  | cons c t ih =>
    cases hf : c.formula with
    | none => simp [List.filterMap_cons, List.filter_cons, hf, ih]
    | some f => simp [List.filterMap_cons, List.filter_cons, hf, ih]

/- ---------------------------------------------------------------
   Claim theorems.
--------------------------------------------------------------- -/

/-- C10: the penalty helper of `app.py` and
`HyperparameterOptimizer._calculate_penalty` of `core/optimizer.py`
are extensionally equal: for every formula string and every
`(alpha1, alpha2)` they compute the same penalty. -/
theorem claim_C10_penalty_equivalence (formula : String) (alpha1 alpha2 : ℚ) :
    calculate_penalty formula alpha1 alpha2 =
      HyperparameterOptimizer._calculate_penalty formula alpha1 alpha2 := rfl

/-- C10 witness at a concrete formula and weights. -/
theorem claim_C10_witness :
    calculate_penalty "delta(close, 5)" (1/2) (1/3) =
      HyperparameterOptimizer._calculate_penalty "delta(close, 5)" (1/2) (1/3) :=
  claim_C10_penalty_equivalence "delta(close, 5)" (1/2) (1/3)

/-- C2: the code violates the claim.  `decay_linear` is not total on
well-formed input: on the two-row series `[1, 2]` with window `d = 2`
the leading window of length 1 meets `min_periods = max(1, int(1.6)) = 1`,
so the rolling apply hands a length-1 array to
`np.dot(s, weights)` against the length-2 weight vector and raises
`ValueError` instead of emitting a missing value. -/
theorem claim_C2_decay_linear_raises :
    decay_linear [some 1, some 2] 2 =
      Except.error "ValueError: shapes not aligned" := rfl

/-- C5: `delta(s,d)` is the elementwise difference `s - delay(s,d)`
(defined exactly where both are), and the first `d` rows per entity
of both `delay(s,d)` and `delta(s,d)` are undefined. -/
theorem claim_C5_delta_delay (s : TSeries) (d : Nat) :
    delta s d = subSeries s (delay s d) ∧
    ∀ i, i < d → i < s.length →
      (delay s d)[i]? = some none ∧ (delta s d)[i]? = some none := by
  refine ⟨rfl, fun i hid hil => ?_⟩
  have hdelay : (delay s d)[i]? = some none := by
    show (shiftSeries s d)[i]? = some none
    unfold shiftSeries
    rw [List.getElem?_append]
    rw [if_pos (by simp [List.length_replicate]; omega)]
    simp [List.getElem?_replicate]
    omega
  refine ⟨hdelay, ?_⟩
  show (subSeries s (shiftSeries s d))[i]? = some none
  unfold subSeries
  rw [List.getElem?_zipWith]
  rw [show (shiftSeries s d)[i]? = some none from hdelay]
  rw [List.getElem?_eq_getElem hil]
  cases s[i] <;> rfl

/-- C5 witness: `s = [1, 3, 6]`, `d = 2`. -/
theorem claim_C5_witness :
    delta [some 1, some 3, some 6] 2 =
        subSeries [some 1, some 3, some 6] (delay [some 1, some 3, some 6] 2) ∧
      (delay [some 1, some 3, some 6] 2)[1]? = some none ∧
      (delta [some 1, some 3, some 6] 2)[1]? = some none := by
  obtain ⟨h1, h2⟩ := claim_C5_delta_delay [some 1, some 3, some 6] 2
  exact ⟨h1, h2 1 (by decide) (by decide)⟩

/-- C3 counterexample: the claim's threshold is
`max(1, ceil(0.8*d))`, but the code truncates (`int`), so for
`d = 2` the claimed threshold is 2 while the code accepts a single
valid observation: `ts_sum` on the one-row series `[5]` with `d = 2`
yields the defined value 5 although the window holds fewer valid
points than the claimed threshold. -/
theorem claim_C3_counterexample :
    definedAt (ts_sum [some 5] 2) 0 ∧
    (validObs (windowAt [some 5] 2 0)).length < specCeilThreshold 2 := by
  constructor
  · exact (definedAt_rollingNative listSum [some 5] 2 0 (by decide)).2 (by decide)
  · decide


/-- C3 (amended): the minimum-observations threshold the rolling
operators apply per window is `max(1, int(0.8*d))` — truncation, not
`ceil`: a window with fewer valid points than `max(1, ⌊0.8·d⌋)`
yields undefined; a window meeting it yields a defined value for the
NaN-skipping statistics `ts_sum`, `ts_min`, `ts_max` (for `stddev`
at least 2 valid points are also needed, and `ts_product` also needs
the raw window to hold no missing value). -/
theorem claim_C3_amended_threshold (s : TSeries) (d i : Nat)
    (hi : i < s.length) : rollingThresholdSpec s d i := by
  have hcnt := definedAt_rollingNative (s := s) (d := d) (i := i)
  refine ⟨fun f => hcnt f hi, hcnt listSum hi, hcnt listMinQ hi,
    hcnt listMaxQ hi, ?_, ?_⟩
  · unfold definedAt
    rw [stddev_getElem s d i hi]
    by_cases hc : minPeriods d ≤ (validObs (windowAt s d i)).length
    · unfold sampleVar
      by_cases h2 : (validObs (windowAt s d i)).length < 2
      · simp [hc, h2]
      · simp [hc, h2]
        omega
    · simp [hc]
  · unfold definedAt ts_product
    rw [rollingApplyRaw_getElem _ s d i hi]
    by_cases hc : minPeriods d ≤ (validObs (windowAt s d i)).length
    · by_cases ha : (windowAt s d i).all Option.isSome = true
      · simp [hc, ha]
      · simp [hc, ha]
    · simp [hc]

/-- C3 witness: series `[1, NaN, 3]`, window `d = 2`, row `i = 2`. -/
theorem claim_C3_witness : rollingThresholdSpec [some 1, none, some 3] 2 2 :=
  claim_C3_amended_threshold [some 1, none, some 3] 2 2 (by decide)

/-- C4: `run_backtest` scores a formula 0.0 whenever the aligned
factor/target sample left after dropping incomplete rows holds fewer
than 100 rows, whatever the fitted model would have returned — the
threshold is the fixed constant of the source. -/
theorem claim_C4_insufficient_data (fit : List (ℚ × ℚ) → ℚ) (ops : OpSem)
    (panel : Panel) (e : Expr) (n : Nat)
    (h : (backtestSample ops panel e).map List.length = some n)
    (hlt : n < 100) :
    run_backtest fit ops panel e = 0 := by
  obtain ⟨sample, hs, hn⟩ := Option.map_eq_some'.mp h
  exact run_backtest_of_short_sample fit ops panel e sample hs (hn ▸ hlt)


set_option maxRecDepth 100000 in
/-- C4 witness: on the 100-row panel the formula `close` leaves
exactly 99 complete rows, and the backtest scores it 0.0 whatever
model fit would have been used. -/
theorem claim_C4_witness :
    (backtestSample (fun _ _ => none) witnessPanel (Expr.ident "close")).map
        List.length = some 99 ∧
    run_backtest (fun _ => 7) (fun _ _ => none) witnessPanel
        (Expr.ident "close") = 0 := by
  constructor
  · decide
  · exact claim_C4_insufficient_data (fun _ => 7) (fun _ _ => none)
      witnessPanel (Expr.ident "close") 99 (by decide) (by decide)

/-- C1: a formula referencing any identifier outside the union of
the panel columns `{open, high, low, close, volume}` and the
operator registry names is rejected with the typed
`ExpressionRejected` failure by the bind-time check — for every
operator semantics `ops`, i.e. without any operator implementation
ever being invoked, so the formula is never executed. -/
theorem claim_C1_sandbox_rejects (ops : OpSem) (panel : Panel) (e : Expr)
    (hcols : panel.map Prod.fst = ["open", "high", "low", "close", "volume"])
    (n : String) (hn : n ∈ identsOf e)
    (hcol : n ∉ (["open", "high", "low", "close", "volume"] : List String))
    (hop : n ∉ operatorNames) :
    sandboxEval ops panel e = .error .expressionRejected := by
  unfold sandboxEval
  rw [if_neg]
  intro hall
  rw [List.all_eq_true] at hall
  have h := hall n hn
  rw [hcols] at h
  simp only [decide_eq_true_eq] at h
  rcases h with h | h
  · exact hcol h
  · exact hop h


/-- C7: every per-formula failure is recovered locally — the
backtester scores a rejected or failed formula 0.0 — and the
evaluation loop still produces a result for every candidate with a
formula, whatever happened to the other candidates. -/
theorem claim_C7_failures_recovered (fit : List (ℚ × ℚ) → ℚ) (ops : OpSem)
    (panel : Panel) (factors : List Candidate) :
    evalLoopSpec fit ops panel factors := by
  refine ⟨?_, ?_, ?_⟩
  · unfold evaluate_factors
    rw [(sortDescBy_perm (fun r : EvalResult => r.ic) _).length_eq]
    exact length_filterMap_formula _ factors
  · intro c hc f hf
    refine ⟨⟨c.description, c.formula, run_backtest fit ops panel f.2⟩, ?_, ?_, rfl⟩
    · unfold evaluate_factors
      apply ((sortDescBy_perm (fun r : EvalResult => r.ic) _).mem_iff).mpr
      apply List.mem_filterMap.mpr
      refine ⟨c, hc, ?_⟩
      rw [hf]
      rfl
    · exact hf
  · exact fun e err h => run_backtest_of_error fit ops panel e err h

/-- C7 witness: a two-candidate list — one formula calling the
unregistered name `bad`, one candidate without a formula — scored
against the one-row panel. -/
theorem claim_C7_witness :
    evalLoopSpec (fun _ => 7) (fun _ _ => none) tinyPanel
      [⟨"d1", some ("bad(close)",
          Expr.call "bad" (.cons (.ident "close") .nil))⟩,
       ⟨"d2", none⟩] :=
  claim_C7_failures_recovered (fun _ => 7) (fun _ _ => none) tinyPanel
    [⟨"d1", some ("bad(close)",
        Expr.call "bad" (.cons (.ident "close") .nil))⟩,
     ⟨"d2", none⟩]


/-- C6: for a non-empty factor set, the optimizer's objective equals
the maximum over the factors of
`ic − lambda · (alpha1 · formula length + alpha2 · digit-run count)`,
and a search that probes only tuples inside
`lambda ∈ [0, 0.01]`, `alpha1, alpha2 ∈ [0, 1]` returns a tuple in
those ranges. -/
theorem claim_C6_objective_and_bounds (factors : List OptFactor)
    (hne : factors ≠ []) (p0 : Params) (ps : List Params)
    (hp0 : inBounds p0) (hps : ∀ p ∈ ps, inBounds p) :
    objectiveSpec factors p0 ps := by
  constructor
  · intro p
    have hobj : _objective_function factors p =
        listMaxQ (factors.map fun f =>
          f.ic.getD 0 - p.lambda_val *
            HyperparameterOptimizer._calculate_penalty (f.formula.getD "")
              p.alpha1 p.alpha2) := by
      unfold _objective_function
      rw [if_neg (by simpa [List.isEmpty_iff] using hne)]
    have hmapne : (factors.map fun f =>
        f.ic.getD 0 - p.lambda_val *
          HyperparameterOptimizer._calculate_penalty (f.formula.getD "")
            p.alpha1 p.alpha2) ≠ [] := by
      simpa using hne
    obtain ⟨hmem, hub⟩ := listMaxQ_spec _ hmapne
    obtain ⟨f, hf, hfv⟩ := List.mem_map.mp hmem
    refine ⟨f, hf, ?_, ?_⟩
    · rw [hobj, ← hfv]
      simp [HyperparameterOptimizer._calculate_penalty]
    · intro g hg
      rw [hobj]
      have hle := hub _ (List.mem_map_of_mem _ hg)
      simpa [HyperparameterOptimizer._calculate_penalty] using hle
  · rcases optimize_mem factors p0 ps with h | h
    · rw [h]
      exact hp0
    · exact hps _ h

/-- C6 witness: one factor, the trivial start probe and one probe at
the corner of the bounds. -/
theorem claim_C6_witness :
    objectiveSpec [⟨some "close", some 1⟩] ⟨0, 0, 0⟩ [⟨1/100, 1, 1⟩] := by
  refine claim_C6_objective_and_bounds _ (List.cons_ne_nil _ _) _ _ ?_ ?_
  · refine ⟨le_refl 0, by norm_num, le_refl 0, by norm_num, le_refl 0, by norm_num⟩
  · intro p hp
    rw [List.mem_singleton] at hp
    subst hp
    refine ⟨by norm_num, le_refl _, by norm_num, le_refl 1, by norm_num, le_refl 1⟩

/-- C1 witness: the adversarial formula `__import__(close)` is
rejected even under an operator semantics that would happily return
a value for any call. -/
theorem claim_C1_witness :
    sandboxEval (fun _ _ => some (.num 0)) tinyPanel
        (Expr.call "__import__" (.cons (.ident "close") .nil)) =
      .error .expressionRejected :=
  claim_C1_sandbox_rejects (fun _ _ => some (.num 0)) tinyPanel
    (Expr.call "__import__" (.cons (.ident "close") .nil))
    (by decide) "__import__" (by decide) (by decide) (by decide)

/-- C8 counterexample: with `lambda = alpha1 = alpha2 = 0` the two
factors `"b"` and `"a"` (in that input order) tie at net score 0,
and the ranking keeps `"b"` — the original list order — in front,
although `"a"` precedes `"b"` in the lexical order of the formula
text that the claim names as the tie-breaker. -/
theorem claim_C8_counterexample :
    rankFactors ⟨0, 0, 0⟩ [⟨"b", some 0⟩, ⟨"a", some 0⟩] =
      [⟨"b", 0, 0, 0⟩, ⟨"a", 0, 0, 0⟩] ∧
    ("a" : String) < "b" := by
  constructor
  · norm_num [rankFactors, rescoreFactor, calculate_penalty, sortDescBy,
      insertDescBy, List.filterMap]
  · rw [String.lt_iff_toList_lt]
    decide


/-- C8 (amended): the final ranking recomputes penalty and net score
for every factor with a defined IC and sorts descending by net
score; ties between equal net scores keep the factors' original
order in the evaluated list (stable sort), and the first element of
the ranking is the selected factor. -/
theorem claim_C8_amended_ranking (p : Params) (evaluated : List AppFactor) :
    rankingSpec p evaluated := by
  refine ⟨?_, ?_, ?_, ?_⟩
  · unfold rankFactors
    exact sortDescBy_perm _ _
  · unfold rankFactors
    exact sortDescBy_pairwise _ _
  · intro c
    unfold rankFactors
    exact sortDescBy_filter _ _ c
  · intro opt ps l sel h
    unfold appRankingStage at h
    by_cases he : evaluated.isEmpty
    · rw [if_pos he] at h
      exact Option.noConfusion h
    · rw [if_neg he] at h
      revert h
      cases hr : rankFactors (chooseParams opt evaluated) evaluated with
      | nil => exact fun h => Option.noConfusion h
      | cons b t =>
        intro h
        simp only [Option.some.injEq, Prod.mk.injEq] at h
        obtain ⟨hps, hl, hsel⟩ := h
        rw [← hps, hr]
        exact ⟨hl.symm, by simp [hsel]⟩

/-- C8 witness: a two-factor list (one with an undefined IC) at the
default parameters. -/
theorem claim_C8_witness :
    rankingSpec defaultParams [⟨"a", some 1⟩, ⟨"b", none⟩] :=
  claim_C8_amended_ranking defaultParams [⟨"a", some 1⟩, ⟨"b", none⟩]

/-- C9: when no evaluated factor has a defined IC, the optimizer is
never consulted — the chosen parameters are the documented defaults
`lambda = 0.001, alpha1 = alpha2 = 0.5`, and the whole
post-evaluation stage is independent of the optimizer. -/
theorem claim_C9_defaults_on_skip (evaluated : List AppFactor)
    (h : ∀ f ∈ evaluated, f.ic = none) :
    (∀ opt : List AppFactor → Params,
      chooseParams opt evaluated = defaultParams) ∧
    (∀ opt opt₂ : List AppFactor → Params,
      appRankingStage opt evaluated = appRankingStage opt₂ evaluated) := by
  have hval : evaluated.filter (fun f => f.ic.isSome) = [] := by
    apply List.filter_eq_nil_iff.mpr
    intro f hf
    simp [h f hf]
  have hcp : ∀ opt : List AppFactor → Params,
      chooseParams opt evaluated = defaultParams := by
    intro opt
    unfold chooseParams
    rw [hval]
    rfl
  refine ⟨hcp, fun o1 o2 => ?_⟩
  unfold appRankingStage
  rw [hcp o1, hcp o2]

/-- C9 witness: one factor whose IC is undefined, two optimizers
that would return out-of-range junk — both ignored. -/
theorem claim_C9_witness :
    chooseParams (fun _ => ⟨5, 5, 5⟩) [⟨"x", none⟩] = defaultParams ∧
    appRankingStage (fun _ => ⟨5, 5, 5⟩) [⟨"x", none⟩] =
      appRankingStage (fun _ => ⟨7, 7, 7⟩) [⟨"x", none⟩] := by
  obtain ⟨h1, h2⟩ := claim_C9_defaults_on_skip [⟨"x", none⟩] (by decide)
  exact ⟨h1 _, h2 _ _⟩

end VibeQuant
